import Mathlib

/-!
Verification of the orchestration logic of `examples/nmnist.py`:
the augmentation pipeline builder (`create_data_aug`), the experiment
namer (`create_data_aug_name`), the training loop (`train`) and the
evaluation loop (`test`).

Conventions of the shallow embedding:
* Python floats are modelled as rationals (`ℚ`); the augmentation
  option values of interest are small non-negative probabilities and
  periods, far from any floating-point edge case the claims touch.
* An absent command-line option (`None` in Python) is `Option.none`.
* Python exceptions are modelled with `Except PyError`: comparing
  `None > 1e-4` raises `TypeError`, and referring to the undefined
  name `arguments` raises `NameError`.
* The external collaborators (dataset, tensors, autodiff, optimizer,
  logging sink) are abstracted: the training loop is modelled over the
  sequence of per-batch scalar losses the external forward pass
  produces, and the evaluation loop over an abstract model together
  with a `forward` function producing per-class log-probability
  scores.
-/

/-- The five optional data-augmentation options of the configuration
(the fields of `args` that `create_data_aug` and
`create_data_aug_name` read).  Each is either absent (`none`, the
flag was not given) or a float value. -/
structure Args where
  drop_probability : Option ℚ
  flip_lr_probability : Option ℚ
  flip_ud_probability : Option ℚ
  refractory_period : Option ℚ
  time_jitter : Option ℚ
deriving DecidableEq

/-- The augmentation steps that `create_data_aug` can place in the
pipeline, each carrying its parameter.  `volume` stands for
`T.Volume(discrete_xy=True)` and `numpyAsType` for
`T.NumpyAsType(np.float32)`. -/
inductive AugStep where
  | dropEvent (p : ℚ)
  | flipLR (p : ℚ)
  | flipUD (p : ℚ)
  | refractoryPeriod (p : ℚ)
  | timeJitter (p : ℚ)
  | volume
  | numpyAsType
deriving DecidableEq

/-- The Python exceptions the builder can raise: `typeError` for the
comparison `None > 1e-4` and `nameError` for the reference to the
undefined name `arguments`. -/
inductive PyError where
  | typeError
  | nameError
deriving DecidableEq

/-- The epsilon threshold `1e-4` of the guards. -/
def eps : ℚ := 1 / 10000

/-- The `drop_probability` block of `create_data_aug`:
`if args.drop_probability is not None and train:` then
`if args.drop_probability > 1e-4:` append `T.DropEvent`. -/
def dropStage (args : Args) (train : Bool) (augs : List AugStep) : List AugStep :=
  match train, args.drop_probability with
  | true, some p => if p > eps then augs ++ [AugStep.dropEvent p] else augs
  | _, _ => augs

/-- The `flip_lr_probability` block of `create_data_aug`: guarded by
its own value, appends `T.FlipLR`. -/
def flipLRStage (args : Args) (train : Bool) (augs : List AugStep) : List AugStep :=
  match train, args.flip_lr_probability with
  | true, some p => if p > eps then augs ++ [AugStep.flipLR p] else augs
  | _, _ => augs

/-- The `flip_ud_probability` block of `create_data_aug`.  The source
enters the block when `args.flip_ud_probability is not None and train`
but the inner guard reads `args.flip_lr_probability > 1e-4`: when
`flip_lr_probability` is `None` the comparison raises `TypeError`, and
otherwise the inclusion of `T.FlipUD` is decided by the flip-LR value,
not the flip-UD one. -/
def flipUDStage (args : Args) (train : Bool) (augs : List AugStep) :
    Except PyError (List AugStep) :=
  match train, args.flip_ud_probability with
  | true, some p =>
    match args.flip_lr_probability with
    | some q => if q > eps then Except.ok (augs ++ [AugStep.flipUD p]) else Except.ok augs
    | none => Except.error PyError.typeError
  | _, _ => Except.ok augs

/-- The `refractory_period` block of `create_data_aug`: guarded by its
own value, appends `T.RefractoryPeriod`. -/
def refractoryStage (args : Args) (train : Bool) (augs : List AugStep) : List AugStep :=
  match train, args.refractory_period with
  | true, some p => if p > eps then augs ++ [AugStep.refractoryPeriod p] else augs
  | _, _ => augs

/-- The `time_jitter` block of `create_data_aug`.  When the guard
fires the source executes `arguments.append(T.TimeJitter(...))`, but
no name `arguments` is defined anywhere in the module, so the line
raises `NameError` instead of appending to `augmentations`. -/
def timeJitterStage (args : Args) (train : Bool) (augs : List AugStep) :
    Except PyError (List AugStep) :=
  match train, args.time_jitter with
  | true, some p => if p > eps then Except.error PyError.nameError else Except.ok augs
  | _, _ => Except.ok augs

/-- Model of `create_data_aug(args, train)`: runs the five optional blocks in
order (drop, flip-LR, flip-UD, refractory, time-jitter), then always
appends `T.Volume(discrete_xy=True)` and `T.NumpyAsType(np.float32)`.
Returns the composed pipeline, or the Python exception raised by the
flip-UD or time-jitter block. -/
def create_data_aug (args : Args) (train : Bool) : Except PyError (List AugStep) :=
  let augs : List AugStep := []
  let augs := dropStage args train augs
  let augs := flipLRStage args train augs
  (flipUDStage args train augs).bind (fun augs =>
    let augs := refractoryStage args train augs
    (timeJitterStage args train augs).map (fun augs =>
      augs ++ [AugStep.volume, AugStep.numpyAsType]))

/-- Model of Python `"%0.2f" % q` for the non-negative option values:
the value rounded to hundredths, printed with exactly two digits after
the decimal point.  (Python rounds the underlying binary double
half-to-even; on the rationals we use the standard rounding, which
agrees on all values the claims touch.  Negative values are out of
scope: the configuration invariant makes every option non-negative.) -/
def format2 (q : ℚ) : String :=
  let n : Nat := (round (q * 100)).toNat
  let frac : Nat := n % 100
  toString (n / 100) ++ "." ++ (if frac < 10 then "0" ++ toString frac else toString frac)

/-- One segment of the experiment name: the tag followed by the
two-decimal value when the option is present, empty when absent. -/
def seg (tag : String) (o : Option ℚ) : String :=
  match o with
  | some p => tag ++ format2 p
  | none => ""

/-- Model of `create_data_aug_name(args)`: starts from the empty string and,
for each of the five options that is present (`is not None`),
appends its tag and `"%0.2f"`-formatted value, in the fixed order
drop, flip-LR, flip-UD, refractory, jitter. -/
def create_data_aug_name (args : Args) : String :=
  let name := ""
  let name := match args.drop_probability with
    | some p => name ++ "_dp_" ++ format2 p
    | none => name
  let name := match args.flip_lr_probability with
    | some p => name ++ "_flr_" ++ format2 p
    | none => name
  let name := match args.flip_ud_probability with
    | some p => name ++ "_fud_" ++ format2 p
    | none => name
  let name := match args.refractory_period with
    | some p => name ++ "_rp_" ++ format2 p
    | none => name
  let name := match args.time_jitter with
    | some p => name ++ "_tj_" ++ format2 p
    | none => name
  name

/-- A configuration with only `--flip-ud-probability 0.5` given. -/
def cfgFlipUDOnly : Args := ⟨none, none, some (1 / 2), none, none⟩

/-- A configuration with `--flip-ud-probability 0.5` and
`--flip-lr-probability 0.0` given. -/
def cfgFlipUDWithZeroLR : Args := ⟨none, some 0, some (1 / 2), none, none⟩

/-- A configuration with only `--flip-ud-probability 0.00005` given
(present but at most the `1e-4` threshold). -/
def cfgFlipUDTiny : Args := ⟨none, none, some (1 / 20000), none, none⟩

/-- A configuration with only `--refractory-period 0.3` given. -/
def cfgRefractoryOnly : Args := ⟨none, none, none, some (3 / 10), none⟩

/-- One logging event: a call to `log(scalars, mode)`.  The record
carries the scalar dictionary, the mode label, and the value the
global step counter had when `log_writer.add_scalar` tagged the
scalars. -/
structure MetricsRecord where
  mode : String
  scalars : List (String × ℚ)
  step : Nat
deriving DecidableEq

/-- The body of the `for batch_idx, (data, target) in enumerate(...)`
loop of `train`, abstracted over the scalar losses the external
forward pass produces (one per batch, in iteration order): walks the
remaining per-batch losses carrying the current `batch_idx` and the
current `global_step`, emits a `{"loss": ...}` record under mode
`"train"` whenever `batch_idx % log_interval == 0`, and increments
`global_step` right after each emission.  Returns the emitted records
in order together with the final `global_step`. -/
def trainGo (log_interval : Int) : List ℚ → Nat → Nat → List MetricsRecord × Nat
  | [], _, global_step => ([], global_step)
  | loss :: rest, batch_idx, global_step =>
    if (batch_idx : Int) % log_interval = 0 then
      let r := trainGo log_interval rest (batch_idx + 1) (global_step + 1)
      ({ mode := "train", scalars := [("loss", loss)], step := global_step } :: r.1, r.2)
    else
      trainGo log_interval rest (batch_idx + 1) global_step

/-- Model of `train(args, model, device, train_loader, optimizer, epoch)`:
one pass of the training loop, starting at `batch_idx = 0` with the
current value of the global step counter.  The parameter updates of
the external optimizer are out of scope; the loop's own observable
behaviour is the logging cadence and the step counter. -/
def train (log_interval : Int) (losses : List ℚ) (global_step : Nat) :
    List MetricsRecord × Nat :=
  trainGo log_interval losses 0 global_step

/-- Specification-side description of one training pass (written from
the spec's words, to be compared with `train`): one record per batch
index divisible by `log_interval`, i.e. `ceil(num_batches /
log_interval)` records, the `k`-th (zero-based) holding the loss of
batch `k * log_interval` under mode `"train"` at step
`global_step + k`. -/
def expectedTrainRecords (log_interval : Nat) (losses : List ℚ) (global_step : Nat) :
    List MetricsRecord :=
  (List.range ((losses.length + log_interval - 1) / log_interval)).map
    (fun k => { mode := "train", scalars := [("loss", losses.getD (k * log_interval) 0)],
                step := global_step + k })

/-- Model of `F.nll_loss(output, target)` for one sample whose per-class
log-probability scores (the output row of the log-softmax network)
are `scores`: the negated score of the true class. -/
def nll_loss (scores : List ℚ) (target : Nat) : ℚ :=
  -(scores.getD target 0)

/-- Helper of `argmax`: scans the remaining scores, keeping the index
of the best score seen so far; a strictly greater score replaces it,
so the first index attaining the maximum wins. -/
def argmaxGo : List ℚ → Nat → Nat → ℚ → Nat
  | [], _, best, _ => best
  | x :: rest, i, best, bestVal =>
    if bestVal < x then argmaxGo rest (i + 1) i x
    else argmaxGo rest (i + 1) best bestVal

/-- Model of `output.argmax(dim=1)` for one sample: the index of the maximum
class score (the first such index). -/
def argmax : List ℚ → Nat
  | [] => 0
  | x :: rest => argmaxGo rest 1 0 x

/-- Model of `F.nll_loss(output, target, reduction="sum").item()` for one
batch of `(data, target)` samples under the model `forward` function:
the summed per-sample losses. -/
def batchLoss {α M : Type} (forward : M → α → List ℚ) (model : M)
    (batch : List (α × Nat)) : ℚ :=
  (batch.map (fun s => nll_loss (forward model s.1) s.2)).sum

/-- Model of `pred.eq(target.view_as(pred)).sum().item()` for one batch: the
number of samples whose predicted class (argmax of the scores) equals
the true label. -/
def batchCorrect {α M : Type} (forward : M → α → List ℚ) (model : M)
    (batch : List (α × Nat)) : Nat :=
  (batch.filter (fun s => argmax (forward model s.1) == s.2)).length

/-- Model of `test(args, model, device, test_loader)`: iterates the batches
once, accumulating `test_loss` (summed, not averaged) and `correct`;
divides both by `len(test_loader.dataset)` (the total sample count);
emits one record with both scalars under mode `"test"`.  The returned
pair `(model, global_step)` is the state after the call: `test`
assigns to neither, so both come back as they went in. -/
def test {α M : Type} (forward : M → α → List ℚ) (model : M)
    (batches : List (List (α × Nat))) (global_step : Nat) :
    MetricsRecord × M × Nat :=
  let acc := batches.foldl
    (fun acc batch =>
      (acc.1 + batchLoss forward model batch, acc.2 + batchCorrect forward model batch))
    ((0 : ℚ), (0 : Nat))
  let n : Nat := (batches.map List.length).sum
  let test_loss := acc.1 / (n : ℚ)
  ({ mode := "test",
     scalars := [("loss", test_loss), ("accuracy", (acc.2 : ℚ) / (n : ℚ))],
     step := global_step },
   model, global_step)

/-- Specification-side total loss of the whole held-out set: the sum
of all per-sample losses, batch structure forgotten. -/
def datasetLoss {α M : Type} (forward : M → α → List ℚ) (model : M)
    (batches : List (List (α × Nat))) : ℚ :=
  (batches.flatten.map (fun s => nll_loss (forward model s.1) s.2)).sum

/-- Specification-side number of correctly classified samples of the
whole held-out set. -/
def datasetCorrect {α M : Type} (forward : M → α → List ℚ) (model : M)
    (batches : List (List (α × Nat))) : Nat :=
  (batches.flatten.filter (fun s => argmax (forward model s.1) == s.2)).length

/-- Specification-side size of the held-out set: the total number of
samples over all batches. -/
def datasetSize {α : Type} (batches : List (List α)) : Nat :=
  (batches.map List.length).sum

/-- A synthetic model over a synthetic held-out set: it ignores its
(unit) parameters and scores class 1 higher exactly when the input
is 1. -/
def witnessForward : Unit → Nat → List ℚ := fun _ x => [0, if x = 1 then 1 else -1]

/-- A synthetic held-out set of 10 `(input, label)` samples in two
batches: under `witnessForward`, exactly 7 of the 10 samples are
predicted correctly. -/
def witnessBatches : List (List (Nat × Nat)) :=
  [[(1, 1), (1, 1), (1, 1), (1, 1), (0, 0)], [(0, 0), (0, 0), (1, 0), (1, 0), (1, 0)]]

/-- When the flip-UD option is present in training mode but the
flip-LR option is absent, the flip-UD block raises `TypeError`,
whatever pipeline prefix it receives. -/
lemma flipUDStage_typeError (args : Args) (augs : List AugStep) (p : ℚ)
    (h1 : args.flip_ud_probability = some p) (h2 : args.flip_lr_probability = none) :
    flipUDStage args true augs = Except.error PyError.typeError := by
  simp [flipUDStage, h1, h2]

/-- Claim C1 (code bug): the claim says each of the five optional
augmentations is included iff `is_training` holds, the option is
present, and the option's own value exceeds `1e-4`.  The code instead
guards the flip-UD step with the flip-LR value: at the configuration
`flip_ud_probability = 0.5`, `flip_lr_probability = 0.0` (and
training mode), `0.5` is present and exceeds the threshold, yet the
returned pipeline contains no flip-UD step at all. -/
theorem c1_flipud_included_iff_own_value_exceeds_eps_fails :
    eps < 1 / 2 ∧ cfgFlipUDWithZeroLR.flip_ud_probability = some (1 / 2) ∧
    create_data_aug cfgFlipUDWithZeroLR true =
      Except.ok [AugStep.volume, AugStep.numpyAsType] := by
  refine ⟨by norm_num [eps], rfl, ?_⟩
  norm_num [create_data_aug, dropStage, flipLRStage, flipUDStage, refractoryStage,
    timeJitterStage, cfgFlipUDWithZeroLR, eps, Except.bind, Except.map]

/-- Claim C2 (code bug): the claim says `build(config, is_training)`
never raises and silently skips absent options.  At the configuration
with only `flip_ud_probability = 0.5` given, the flip-UD block
compares the absent flip-LR value against `1e-4` and the call raises
`TypeError` instead of returning a pipeline. -/
theorem c2_build_never_raises_fails :
    create_data_aug cfgFlipUDOnly true = Except.error PyError.typeError := by
  norm_num [create_data_aug, dropStage, flipLRStage, flipUDStage, refractoryStage,
    timeJitterStage, cfgFlipUDOnly, eps, Except.bind, Except.map]

/-- Claim C3: for every configuration, evaluation mode
(`train=False`) includes none of the five optional augmentation
steps: the pipeline is exactly the binning step followed by the
dtype-cast step, appended in that order as the only steps. -/
theorem c3_eval_pipeline_two_steps (args : Args) :
    create_data_aug args false = Except.ok [AugStep.volume, AugStep.numpyAsType] := rfl

/-- Claim C4: `create_data_aug_name` is the concatenation of one
segment per present option, in the fixed order drop, flip-LR,
flip-UD, refractory, jitter, each segment being the option's tag
followed by the two-decimal value; in particular a configuration
with only the refractory-period option yields the single segment
`"_rp_"` + value, and with value `0.3` exactly `"_rp_0.30"`. -/
theorem c4_name_is_ordered_segments (args : Args) (p : ℚ) :
    create_data_aug_name args =
      seg ("_dp_") args.drop_probability ++ seg ("_flr_") args.flip_lr_probability ++
      seg ("_fud_") args.flip_ud_probability ++ seg ("_rp_") args.refractory_period ++
      seg ("_tj_") args.time_jitter ∧
    create_data_aug_name ⟨none, none, none, some p, none⟩ = "_rp_" ++ format2 p ∧
    create_data_aug_name cfgRefractoryOnly = "_rp_0.30" := by
  have h30 : format2 ((3 : ℚ) / 10) = "0.30" := by
    have h : round ((3 : ℚ) / 10 * 100) = 30 := by rw [round_eq]; norm_num
    simp only [format2, h]
    rfl
  obtain ⟨d, lr, ud, rp, tj⟩ := args
  refine ⟨?_, ?_, ?_⟩
  · cases d <;> cases lr <;> cases ud <;> cases rp <;> cases tj <;>
      simp [create_data_aug_name, seg, String.append_assoc]
  · simp [create_data_aug_name]
  · have hname : create_data_aug_name cfgRefractoryOnly = "_rp_" ++ format2 ((3 : ℚ) / 10) := rfl
    rw [hname, h30]
    rfl

/-- Claim C5 counterexample: at the configuration with only
`flip_ud_probability = 0.00005` given, every option is unset or at
most `1e-4`, yet `build(config, True)` raises `TypeError` (so the
two pipelines do not have the same two-step shape) and the
experiment name is `"_fud_0.00"`, not the empty string. -/
theorem c5_counterexample :
    ((1 : ℚ) / 20000 ≤ eps) ∧
    create_data_aug cfgFlipUDTiny true = Except.error PyError.typeError ∧
    create_data_aug_name cfgFlipUDTiny ≠ "" := by
  have hf : format2 ((1 : ℚ) / 20000) = "0.00" := by
    have h0 : round ((1 : ℚ) / 20000 * 100) = 0 := by rw [round_eq]; norm_num
    simp only [format2, h0]
    rfl
  refine ⟨by norm_num [eps], ?_, ?_⟩
  · norm_num [create_data_aug, dropStage, flipLRStage, flipUDStage, refractoryStage,
      timeJitterStage, cfgFlipUDTiny, eps, Except.bind, Except.map]
  · have hname : create_data_aug_name cfgFlipUDTiny = "_fud_" ++ format2 ((1 : ℚ) / 20000) := rfl
    rw [hname, hf]
    decide

/-- Claim C5 (amended): for every configuration in which each of the
five augmentation options is unset, `build(config, True)` and
`build(config, False)` both return the two-step pipeline (binning,
dtype-cast) and the experiment namer returns the empty string. -/
theorem c5_all_unset_two_steps_and_empty_name (args : Args)
    (h1 : args.drop_probability = none) (h2 : args.flip_lr_probability = none)
    (h3 : args.flip_ud_probability = none) (h4 : args.refractory_period = none)
    (h5 : args.time_jitter = none) :
    create_data_aug args true = Except.ok [AugStep.volume, AugStep.numpyAsType] ∧
    create_data_aug args false = Except.ok [AugStep.volume, AugStep.numpyAsType] ∧
    create_data_aug_name args = "" := by
  obtain ⟨d, lr, ud, rp, tj⟩ := args
  cases h1; cases h2; cases h3; cases h4; cases h5
  exact ⟨rfl, rfl, rfl⟩

/-- Witness for C5 (amended): the all-unset configuration. -/
theorem c5_witness :
    create_data_aug ⟨none, none, none, none, none⟩ true =
      Except.ok [AugStep.volume, AugStep.numpyAsType] ∧
    create_data_aug ⟨none, none, none, none, none⟩ false =
      Except.ok [AugStep.volume, AugStep.numpyAsType] ∧
    create_data_aug_name ⟨none, none, none, none, none⟩ = "" :=
  c5_all_unset_two_steps_and_empty_name ⟨none, none, none, none, none⟩ rfl rfl rfl rfl rfl

/-- Claim C10: whenever the flip-UD probability is present and the
flip-LR probability is absent, `build(config, True)` raises (the
flip-UD inclusion guard compares the absent flip-LR value against
the threshold): the builder returns the `TypeError` outcome, not a
pipeline. -/
theorem c10_flipud_present_fliplr_absent_raises (args : Args) (p : ℚ)
    (h1 : args.flip_ud_probability = some p) (h2 : args.flip_lr_probability = none) :
    create_data_aug args true = Except.error PyError.typeError := by
  simp only [create_data_aug]
  rw [flipUDStage_typeError args _ p h1 h2]
  rfl

/-- Witness for C10: the configuration with only
`flip_ud_probability = 0.5` given. -/
theorem c10_witness :
    cfgFlipUDOnly.flip_ud_probability = some (1 / 2) ∧
    cfgFlipUDOnly.flip_lr_probability = none ∧
    create_data_aug cfgFlipUDOnly true = Except.error PyError.typeError :=
  ⟨rfl, rfl, c10_flipud_present_fliplr_absent_raises cfgFlipUDOnly (1 / 2) rfl rfl⟩

/-- Unfolding of the loop body at a batch index divisible by the log
interval: a record is emitted at the current step and the counter is
incremented. -/
lemma trainGo_cons_emit (L : Nat) (loss : ℚ) (rest : List ℚ) (i gs : Nat)
    (h : i % L = 0) :
    trainGo (L : Int) (loss :: rest) i gs =
      ({ mode := "train", scalars := [("loss", loss)], step := gs } ::
        (trainGo (L : Int) rest (i + 1) (gs + 1)).1,
       (trainGo (L : Int) rest (i + 1) (gs + 1)).2) := by
  have hc : ((i : Int)) % (L : Int) = 0 := by exact_mod_cast h
  simp [trainGo, hc]

/-- Unfolding of the loop body at a batch index not divisible by the
log interval: nothing is emitted and the counter is unchanged. -/
lemma trainGo_cons_skip (L : Nat) (loss : ℚ) (rest : List ℚ) (i gs : Nat)
    (h : i % L ≠ 0) :
    trainGo (L : Int) (loss :: rest) i gs = trainGo (L : Int) rest (i + 1) gs := by
  have hc : ¬ ((i : Int)) % (L : Int) = 0 := by
    intro hc
    exact h (by exact_mod_cast hc)
  simp [trainGo, hc]

/-- The loop behaviour depends on the batch index only through its
residue modulo the log interval. -/
lemma trainGo_mod_congr (L : Nat) (losses : List ℚ) :
    ∀ i j gs : Nat, i % L = j % L →
      trainGo (L : Int) losses i gs = trainGo (L : Int) losses j gs := by
  induction losses with
  | nil => intro i j gs _; rfl
  | cons loss rest ih =>
    intro i j gs h
    have hstep : (i + 1) % L = (j + 1) % L := by
      rw [Nat.add_mod i 1 L, Nat.add_mod j 1 L, h]
    by_cases hi : i % L = 0
    · have hj : j % L = 0 := by rw [← h]; exact hi
      rw [trainGo_cons_emit L loss rest i gs hi, trainGo_cons_emit L loss rest j gs hj,
        ih (i + 1) (j + 1) (gs + 1) hstep]
    · have hj : j % L ≠ 0 := by rw [← h]; exact hi
      rw [trainGo_cons_skip L loss rest i gs hi, trainGo_cons_skip L loss rest j gs hj]
      exact ih (i + 1) (j + 1) gs hstep

/-- From a batch index `L - m` (with `m < L`, so past an emission
point and strictly before the next one at `L`), the loop emits
nothing while consuming the next `m` batches. -/
lemma trainGo_skip_run (L : Nat) :
    ∀ m : Nat, m < L → ∀ (losses : List ℚ) (gs : Nat),
      trainGo (L : Int) losses (L - m) gs = trainGo (L : Int) (losses.drop m) L gs := by
  intro m
  induction m with
  | zero => intro _ losses gs; simp
  | succ m ih =>
    intro hm losses gs
    cases losses with
    | nil => rfl
    | cons loss rest =>
      have h1 : 1 ≤ L - (m + 1) := by omega
      have hlt : L - (m + 1) < L := by omega
      have hne : (L - (m + 1)) % L ≠ 0 := by
        rw [Nat.mod_eq_of_lt hlt]
        omega
      rw [trainGo_cons_skip L loss rest (L - (m + 1)) gs hne]
      have harg : L - (m + 1) + 1 = L - m := by omega
      rw [harg, List.drop_succ_cons]
      exact ih (by omega) rest gs

/-- Reading an element of a dropped list is reading the original list
further right. -/
lemma getD_drop_add {α : Type} (l : List α) (i j : Nat) (d : α) :
    (l.drop i).getD j d = l.getD (i + j) d := by
  simp [List.getD_eq_getElem?_getD, List.getElem?_drop]

/-- Peeling one emission off the loop when it starts at batch index
zero: the head record is logged at the current step, and the rest of
the run is the loop restarted on the batches after the next emission
point. -/
lemma trainGo_chunk (L : Nat) (hL : 0 < L) (loss : ℚ) (rest : List ℚ) (gs : Nat) :
    trainGo (L : Int) (loss :: rest) 0 gs =
      ({ mode := "train", scalars := [("loss", loss)], step := gs } ::
        (trainGo (L : Int) (rest.drop (L - 1)) 0 (gs + 1)).1,
       (trainGo (L : Int) (rest.drop (L - 1)) 0 (gs + 1)).2) := by
  rw [trainGo_cons_emit L loss rest 0 gs (Nat.zero_mod L)]
  have hskip := trainGo_skip_run L (L - 1) (by omega) rest (gs + 1)
  have h1 : L - (L - 1) = 1 := by omega
  rw [h1] at hskip
  have hrest : trainGo (L : Int) rest 1 (gs + 1) =
      trainGo (L : Int) (rest.drop (L - 1)) 0 (gs + 1) := by
    rw [hskip]
    exact trainGo_mod_congr L (rest.drop (L - 1)) L 0 (gs + 1)
      (by rw [Nat.mod_self, Nat.zero_mod])
  rw [hrest]

/-- With a positive log interval, the expected record list of the
empty batch sequence is empty. -/
lemma expectedTrainRecords_nil (L : Nat) (hL : 0 < L) (gs : Nat) :
    expectedTrainRecords L [] gs = [] := by
  unfold expectedTrainRecords
  rw [List.length_nil, Nat.zero_add, Nat.div_eq_of_lt (by omega)]
  rfl

/-- Peeling one record off the specification-side description: the
head record holds the first batch loss at the current step, and the
tail describes the batches after the next emission point with the
step counter advanced by one. -/
lemma expectedTrainRecords_chunk (L : Nat) (hL : 0 < L) (loss : ℚ) (rest : List ℚ)
    (gs : Nat) :
    expectedTrainRecords L (loss :: rest) gs =
      { mode := "train", scalars := [("loss", loss)], step := gs } ::
        expectedTrainRecords L (rest.drop (L - 1)) (gs + 1) := by
  unfold expectedTrainRecords
  have hc1 : ((loss :: rest).length + L - 1) / L = rest.length / L + 1 := by
    rw [List.length_cons]
    have h : rest.length + 1 + L - 1 = rest.length + L := by omega
    rw [h, Nat.add_div_right _ hL]
  have hc2 : ((rest.drop (L - 1)).length + L - 1) / L = rest.length / L := by
    rw [List.length_drop]
    by_cases h : L - 1 ≤ rest.length
    · have h1 : rest.length - (L - 1) + L - 1 = rest.length := by omega
      rw [h1]
    · have h1 : rest.length - (L - 1) + L - 1 = L - 1 := by omega
      rw [h1, Nat.div_eq_of_lt (by omega), Nat.div_eq_of_lt (by omega)]
  rw [hc1, hc2, List.range_succ_eq_map, List.map_cons, List.map_map]
  have hhead : (loss :: rest).getD (0 * L) 0 = loss := by
    rw [Nat.zero_mul]
    rfl
  rw [hhead]
  have htail : ∀ k ∈ List.range (rest.length / L),
      ({ mode := "train", scalars := [("loss", (loss :: rest).getD (Nat.succ k * L) 0)],
         step := gs + Nat.succ k } : MetricsRecord) =
      { mode := "train", scalars := [("loss", (rest.drop (L - 1)).getD (k * L) 0)],
        step := gs + 1 + k } := by
    intro k _
    have hidx : Nat.succ k * L = (L - 1 + k * L) + 1 := by
      rw [Nat.succ_mul]
      omega
    have hstep : gs + Nat.succ k = gs + 1 + k := by omega
    rw [hidx, List.getD_cons_succ, getD_drop_add, hstep]
  rw [Nat.add_zero]
  simp only [Function.comp_def]
  exact congrArg _ (List.map_congr_left htail)

/-- Starting at batch index zero, the training loop emits exactly the
specification-side record list. -/
lemma trainGo_zero_eq_expected (L : Nat) (hL : 0 < L) :
    ∀ (n : Nat) (losses : List ℚ) (gs : Nat), losses.length ≤ n →
      (trainGo (L : Int) losses 0 gs).1 = expectedTrainRecords L losses gs := by
  intro n
  induction n with
  | zero =>
    intro losses gs h
    have hnil : losses = [] := List.eq_nil_of_length_eq_zero (by omega)
    subst hnil
    rw [expectedTrainRecords_nil L hL]
    rfl
  | succ n ih =>
    intro losses gs h
    cases losses with
    | nil =>
      rw [expectedTrainRecords_nil L hL]
      rfl
    | cons loss rest =>
      rw [trainGo_chunk L hL loss rest gs, expectedTrainRecords_chunk L hL loss rest gs]
      show _ :: (trainGo (L : Int) (rest.drop (L - 1)) 0 (gs + 1)).1 = _
      have hlen : (rest.drop (L - 1)).length ≤ n := by
        rw [List.length_drop]
        have := h
        rw [List.length_cons] at this
        omega
      rw [ih (rest.drop (L - 1)) (gs + 1) hlen]

/-- Claim C6: over a source of `num_batches` batches with a positive
`log_interval`, one training pass emits exactly
`ceil(num_batches / log_interval)` records, the `k`-th of them at
batch index `k * log_interval` (exactly the indices divisible by
`log_interval`, batch 0 included), holding that batch's scalar loss
under mode `"train"`. -/
theorem c6_train_logs_every_log_interval (L : Nat) (hL : 0 < L) (losses : List ℚ)
    (gs : Nat) :
    (train (L : Int) losses gs).1 = expectedTrainRecords L losses gs ∧
    (train (L : Int) losses gs).1.length = (losses.length + L - 1) / L := by
  have h := trainGo_zero_eq_expected L hL losses.length losses gs le_rfl
  constructor
  · exact h
  · show (trainGo (L : Int) losses 0 gs).1.length = _
    rw [h]
    unfold expectedTrainRecords
    rw [List.length_map, List.length_range]

/-- Witness for C6: log interval 2 over three batches gives two
records, at batch indices 0 and 2. -/
theorem c6_witness :
    0 < 2 ∧
    ((train ((2 : Nat) : Int) [5, 7, 9] 0).1 = expectedTrainRecords 2 [5, 7, 9] 0 ∧
     (train ((2 : Nat) : Int) [5, 7, 9] 0).1.length =
       (([5, 7, 9] : List ℚ).length + 2 - 1) / 2) :=
  ⟨by decide, c6_train_logs_every_log_interval 2 (by decide) [5, 7, 9] 0⟩

/-- The final step counter is the initial one plus the number of
emitted records, whatever the starting batch index. -/
lemma trainGo_final_step (L : Int) (losses : List ℚ) :
    ∀ i gs : Nat, (trainGo L losses i gs).2 = gs + (trainGo L losses i gs).1.length := by
  induction losses with
  | nil => intro i gs; rfl
  | cons loss rest ih =>
    intro i gs
    by_cases h : ((i : Int)) % L = 0
    · simp only [trainGo, if_pos h, List.length_cons]
      rw [ih (i + 1) (gs + 1)]
      omega
    · simp only [trainGo, if_neg h]
      exact ih (i + 1) gs

/-- Claim C7: the global step counter is incremented exactly once per
emitted training record: one pass starting at counter value `gs`
finishes at `gs + number of emitted records`, so starting from 0 it
equals `N` after `N` logged events, and the counter never
decreases across passes. -/
theorem c7_global_step_counts_logged_events (L : Nat) (_hL : 0 < L) (losses : List ℚ)
    (gs : Nat) :
    (train (L : Int) losses gs).2 = gs + (train (L : Int) losses gs).1.length ∧
    gs ≤ (train (L : Int) losses gs).2 := by
  have h := trainGo_final_step (L : Int) losses 0 gs
  refine ⟨h, ?_⟩
  show gs ≤ (trainGo (L : Int) losses 0 gs).2
  rw [h]
  exact Nat.le_add_right _ _

/-- Witness for C7: log interval 1 over one batch of loss 3. -/
theorem c7_witness :
    0 < 1 ∧
    ((train ((1 : Nat) : Int) [3] 0).2 = 0 + (train ((1 : Nat) : Int) [3] 0).1.length ∧
     0 ≤ (train ((1 : Nat) : Int) [3] 0).2) :=
  ⟨by decide, c7_global_step_counts_logged_events 1 (by decide) [3] 0⟩

/-- The per-batch accumulation of `test` sums the two components
batch by batch. -/
lemma test_foldl_acc {α M : Type} (forward : M → α → List ℚ) (model : M) :
    ∀ (batches : List (List (α × Nat))) (a : ℚ) (c : Nat),
      batches.foldl
        (fun acc batch =>
          (acc.1 + batchLoss forward model batch, acc.2 + batchCorrect forward model batch))
        (a, c) =
      (a + datasetLoss forward model batches, c + datasetCorrect forward model batches) := by
  intro batches
  induction batches with
  | nil =>
    intro a c
    simp [datasetLoss, datasetCorrect]
  | cons batch rest ih =>
    intro a c
    rw [List.foldl_cons, ih]
    unfold datasetLoss datasetCorrect batchLoss batchCorrect
    rw [List.flatten_cons, List.map_append, List.sum_append, List.filter_append,
      List.length_append]
    simp only [Prod.mk.injEq]
    constructor
    · ring
    · omega

/-- The accumulated pair of `test` over the whole source. -/
lemma test_acc_eq {α M : Type} (forward : M → α → List ℚ) (model : M)
    (batches : List (List (α × Nat))) :
    batches.foldl
      (fun acc batch =>
        (acc.1 + batchLoss forward model batch, acc.2 + batchCorrect forward model batch))
      ((0 : ℚ), (0 : Nat)) =
    (datasetLoss forward model batches, datasetCorrect forward model batches) := by
  rw [test_foldl_acc forward model batches 0 0]
  simp

/-- The number of correctly classified samples never exceeds the
sample count. -/
lemma datasetCorrect_le_size {α M : Type} (forward : M → α → List ℚ) (model : M)
    (batches : List (List (α × Nat))) :
    datasetCorrect forward model batches ≤ datasetSize batches := by
  unfold datasetCorrect datasetSize
  calc (batches.flatten.filter (fun s => argmax (forward model s.1) == s.2)).length
      ≤ batches.flatten.length := List.length_filter_le _ _
    _ = (batches.map List.length).sum := List.length_flatten batches

/-- Claim C8: one evaluation pass reports, in a single record under
mode `"test"`, the summed loss divided by the total sample count and
the accuracy `correct / total` (the count of samples whose argmax
prediction equals the label, divided by the total sample count),
which lies in `[0, 1]`. -/
theorem c8_test_reports_mean_loss_and_accuracy {α M : Type} (forward : M → α → List ℚ)
    (model : M) (batches : List (List (α × Nat))) (gs : Nat)
    (hn : 0 < datasetSize batches) :
    (test forward model batches gs).1.mode = "test" ∧
    (test forward model batches gs).1.scalars =
      [("loss", datasetLoss forward model batches / (datasetSize batches : ℚ)),
       ("accuracy", (datasetCorrect forward model batches : ℚ) / (datasetSize batches : ℚ))] ∧
    0 ≤ (datasetCorrect forward model batches : ℚ) / (datasetSize batches : ℚ) ∧
    (datasetCorrect forward model batches : ℚ) / (datasetSize batches : ℚ) ≤ 1 := by
  have hpos : (0 : ℚ) < (datasetSize batches : ℚ) := by exact_mod_cast hn
  refine ⟨rfl, ?_, ?_, ?_⟩
  · show ({ mode := "test", scalars := _, step := gs } : MetricsRecord).scalars = _
    rw [test_acc_eq forward model batches]
    rfl
  · positivity
  · rw [div_le_one hpos]
    exact_mod_cast datasetCorrect_le_size forward model batches

/-- Witness for C8: on the synthetic 10-sample set with 7 correct
predictions the reported accuracy is exactly `7 / 10 = 0.7`. -/
theorem c8_witness :
    0 < datasetSize witnessBatches ∧
    ((test witnessForward () witnessBatches 0).1.mode = "test" ∧
     (test witnessForward () witnessBatches 0).1.scalars =
       [("loss", datasetLoss witnessForward () witnessBatches /
          (datasetSize witnessBatches : ℚ)),
        ("accuracy", (datasetCorrect witnessForward () witnessBatches : ℚ) /
          (datasetSize witnessBatches : ℚ))] ∧
     0 ≤ (datasetCorrect witnessForward () witnessBatches : ℚ) /
       (datasetSize witnessBatches : ℚ) ∧
     (datasetCorrect witnessForward () witnessBatches : ℚ) /
       (datasetSize witnessBatches : ℚ) ≤ 1) ∧
    (datasetCorrect witnessForward () witnessBatches : ℚ) /
      (datasetSize witnessBatches : ℚ) = 7 / 10 := by
  refine ⟨by decide, c8_test_reports_mean_loss_and_accuracy witnessForward () witnessBatches 0
    (by decide), ?_⟩
  have hc : datasetCorrect witnessForward () witnessBatches = 7 := by
    unfold datasetCorrect witnessBatches witnessForward
    simp [argmax, argmaxGo]
  have hs : datasetSize witnessBatches = 10 := by decide
  rw [hc, hs]
  norm_num

/-- Claim C9: the evaluation step mutates neither the model
parameters nor the global step counter, and its single record is
tagged with the current, unincremented global step. -/
theorem c9_test_preserves_model_and_step {α M : Type} (forward : M → α → List ℚ)
    (model : M) (batches : List (List (α × Nat))) (gs : Nat) :
    (test forward model batches gs).2.1 = model ∧
    (test forward model batches gs).2.2 = gs ∧
    (test forward model batches gs).1.step = gs :=
  ⟨rfl, rfl, rfl⟩
